import Mathlib

/-!
Shallow embedding of the xinfadi price crawler (xinfadi_crawler.py) and the
Feishu spreadsheet sync module (feishu_sync.py), together with theorems
settling the specification's claims about the pagination loop, per-page
error handling, record normalization, the token lifecycle, chunked upload
and name-collision probing.  Remote I/O is modelled by outcome oracles:
every function that performs an HTTP call takes the outcome of that call
as an explicit argument.
-/

/-- Result of one page request as consumed by fetch_all_data: the record
list together with the values of the count and total fields of the JSON
body, where 0 stands for an absent key, mirroring dict.get with default 0. -/
structure PageResult (α : Type) where
  list : List α
  count : Nat
  total : Nat
  deriving DecidableEq, Repr

/-- The effective total used by fetch_all_data, from the source line
total = result.get with key count, default 0, or-else result.get with key
total, default 0: Python or takes the second operand when the first is 0. -/
def effTotal {α : Type} (r : PageResult α) : Nat :=
  if r.count ≠ 0 then r.count else r.total

/-- Outcome of the HTTP GET performed inside fetch_page: a parsed JSON
body, a transport failure (requests.RequestException) or a JSON decode
failure (ValueError). -/
inductive FetchOutcome (α : Type) where
  | ok (resp : PageResult α)
  | requestError
  | jsonError
  deriving DecidableEq

/-- fetch_page: returns the parsed response; on a transport error or a
JSON decode failure it catches the exception and returns the dict with
empty list and total 0 (count key absent, hence 0 in this model).  No
exception escapes: the function is total. -/
def fetch_page {α : Type} : FetchOutcome α → PageResult α
  | .ok r => r
  | .requestError => ⟨[], 0, 0⟩
  | .jsonError => ⟨[], 0, 0⟩

/-- Why the fetch_all_data loop stopped. fuelExhausted is an artifact of
the fuel-based embedding of the unbounded while loop and corresponds to
no stop condition of the source. -/
inductive StopReason where
  | capExceeded
  | emptyPage
  | totalReached
  | fuelExhausted
  deriving DecidableEq, Repr

/-- The guard max_pages and page greater-than max_pages of the source:
None and 0 are falsy in Python, so they disable the cap entirely. -/
def capStop (maxPages : Option Nat) (page : Nat) : Bool :=
  match maxPages with
  | none => false
  | some n => n != 0 && page > n

/-- The while-True body of fetch_all_data, page by page.  pages gives the
result of fetch_page for each page number; fuel bounds the number of
iterations of the embedding.  Returns the accumulated records, the reason
the loop stopped, and the page number at which it stopped. -/
def fetch_all_aux {α : Type} (pages : Nat → PageResult α) (maxPages : Option Nat) :
    Nat → Nat → List α → List α × StopReason × Nat
  | 0, page, acc => (acc, .fuelExhausted, page)
  | fuel+1, page, acc =>
    if capStop maxPages page then (acc, .capExceeded, page)
    else
      let r := pages page
      if r.list.isEmpty then (acc, .emptyPage, page)
      else
        let acc2 := acc ++ r.list
        if effTotal r ≤ acc2.length then (acc2, .totalReached, page)
        else fetch_all_aux pages maxPages fuel (page+1) acc2

/-- fetch_all_data: the loop starts at page 1 with an empty accumulator. -/
def fetch_all_data {α : Type} (pages : Nat → PageResult α) (maxPages : Option Nat)
    (fuel : Nat) : List α × StopReason × Nat :=
  fetch_all_aux pages maxPages fuel 1 []

/-- Concatenation of the record lists of pages 1 up to p. -/
def pagesConcat {α : Type} (pages : Nat → PageResult α) (p : Nat) : List α :=
  ((List.range p).map fun i => (pages (i+1)).list).flatten

/-- Concrete page oracle used to instantiate the pagination theorems:
every page is empty. -/
def pagesAllEmpty : Nat → PageResult Nat := fun _ => ⟨[], 0, 0⟩

/-- Concrete page oracle: pages 1 and 2 hold one record each, every later
page is empty, and every page reports total 5. -/
def pagesShortServer : Nat → PageResult Nat :=
  fun p => if p ≤ 2 then ⟨[p], 5, 0⟩ else ⟨[], 5, 0⟩

/-- Concrete outcome oracle whose every page request fails at transport
level. -/
def outcomesAllFail : Nat → FetchOutcome Nat := fun _ => .requestError

/-- Python string truthiness for an optional field: an absent value and
the empty string are falsy. -/
def pyTruthy (s : Option String) : Bool :=
  match s with
  | none => false
  | some t => t != ""

/-- A raw record as returned by the price API, restricted to the fields
parse_data reads; none models an absent key. -/
structure RawRecord where
  prodCat : Option String := none
  prodPcat : Option String := none
  prodName : Option String := none
  lowPrice : Option String := none
  avgPrice : Option String := none
  highPrice : Option String := none
  specInfo : Option String := none
  place : Option String := none
  unitInfo : Option String := none
  pubDate : Option String := none
  deriving DecidableEq

/-- A normalized row with the fixed ten columns of parse_data, in source
order: category 1, category 2, product name, low, average and high price,
spec, origin, unit, publish date.  Price cells are numeric-or-null. -/
structure NormalizedRow where
  cat1 : String
  cat2 : String
  prodName : String
  lowPrice : Option ℚ
  avgPrice : Option ℚ
  highPrice : Option ℚ
  specInfo : String
  place : String
  unitInfo : String
  pubDate : String
  deriving DecidableEq

/-- Split a character list at every decimal point. -/
def splitOnDot : List Char → List (List Char)
  | [] => [[]]
  | c :: rest =>
    let r := splitOnDot rest
    if c = ('.') then [] :: r
    else
      match r with
      | h :: t => (c :: h) :: t
      | [] => [[c]]

/-- Read a nonempty all-digit character list as a natural number. -/
def parseNatDigits : List Char → Option Nat
  | [] => none
  | l =>
    if l.all (fun c => c.isDigit) then
      some (l.foldl (fun a c => a * 10 + (c.toNat - 48)) 0)
    else none

/-- Numeric coercion of a cell.  Models pandas.to_numeric with coercing
errors, which the source applies to the three price columns, restricted
to optionally signed plain decimal strings: any string outside that shape
coerces to none (null), never to an error. -/
def to_numeric (s : String) : Option ℚ :=
  let sl : Int × List Char :=
    match s.data with
    | c :: rest =>
      if c = ('-') then (-1, rest)
      else if c = ('+') then (1, rest)
      else (1, s.data)
    | [] => (1, [])
  match splitOnDot sl.2 with
  | [ip] => (parseNatDigits ip).map (fun n => ((sl.1 : ℚ) * (n : ℚ)))
  | [ip, fp] =>
    match parseNatDigits ip, parseNatDigits fp with
    | some i, some f =>
      some ((sl.1 : ℚ) * ((i : ℚ) + (f : ℚ) / ((10 : ℚ) ^ fp.length)))
    | _, _ => none
  | _ => none

/-- One iteration of the parse_data loop: field extraction with the
source's fallbacks (the primary category falls back to the secondary one
and then to the empty string via Python or on falsy strings; the
secondary column is kept only when truthy), followed by the numeric
coercion of the three price columns. -/
def parse_row (item : RawRecord) : NormalizedRow :=
  let primary := item.prodCat.getD ("")
  { cat1 := if primary != "" then primary else item.prodPcat.getD ("")
    cat2 := if pyTruthy item.prodPcat then item.prodPcat.getD ("") else ""
    prodName := item.prodName.getD ("")
    lowPrice := to_numeric (item.lowPrice.getD (""))
    avgPrice := to_numeric (item.avgPrice.getD (""))
    highPrice := to_numeric (item.highPrice.getD (""))
    specInfo := item.specInfo.getD ("")
    place := item.place.getD ("")
    unitInfo := item.unitInfo.getD ("")
    pubDate := item.pubDate.getD ("") }

/-- parse_data: every raw record yields exactly one normalized row, in
order; no record is rejected. -/
def parse_data (raw : List RawRecord) : List NormalizedRow :=
  raw.map parse_row

/-- The concrete raw record of the end-to-end scenario. -/
def recVegetable : RawRecord :=
  { prodCat := some ("蔬菜"), prodName := some ("白菜"),
    lowPrice := some ("1.2"), avgPrice := some ("bad"),
    highPrice := some ("2.0") }

/-- A raw record whose primary category key is absent, used to witness
the category fallback. -/
def recNoPrimary : RawRecord :=
  { prodPcat := some ("水果"), avgPrice := some ("x1") }

/-- The mutable token fields of a FeishuSync instance; the empty string
models an unset (falsy) token. -/
structure SyncState where
  user_access_token : String
  refresh_token : String
  tenant_access_token : String
  token_expires_at : Int
  deriving DecidableEq, Repr

/-- The token-related keys of the persisted feishu_config.json file.
There is no tenant token key: save_config never writes one. -/
structure ConfigFile where
  user_access_token : String
  refresh_token : String
  token_expires_at : Int
  deriving DecidableEq, Repr

/-- save_config: rewrites the config file with the in-memory user token,
refresh token and expiry timestamp. -/
def save_config (st : SyncState) (cfg : ConfigFile) : ConfigFile :=
  { cfg with
    user_access_token := st.user_access_token
    refresh_token := st.refresh_token
    token_expires_at := st.token_expires_at }

/-- Outcome of the two-step token exchange performed by both
exchange_code_for_token and refresh_user_token: failure of the app-token
step, remote rejection of the second step, a transport exception at
either step, or success carrying the new token pair and the optional
expires_in (absent means the source default 7200). -/
inductive TokenExchangeOutcome where
  | transportError
  | appTokenFail
  | userTokenFail
  | success (access_token refresh_token : String) (expires_in : Option Int)
  deriving DecidableEq

/-- exchange_code_for_token: on success stores the delegated token pair,
sets the absolute expiry to now plus expires_in, persists via save_config
and returns true; on any failure returns false and changes nothing. -/
def exchange_code_for_token (st : SyncState) (cfg : ConfigFile) (now : Int)
    (o : TokenExchangeOutcome) : Bool × SyncState × ConfigFile :=
  match o with
  | .success tok rt ei =>
    let st2 := { st with
      user_access_token := tok
      refresh_token := rt
      token_expires_at := now + ei.getD 7200 }
    (true, st2, save_config st2 cfg)
  | _ => (false, st, cfg)

/-- refresh_user_token: returns false immediately when no refresh token
is cached; otherwise behaves like the code exchange, persisting the new
pair on success. -/
def refresh_user_token (st : SyncState) (cfg : ConfigFile) (now : Int)
    (o : TokenExchangeOutcome) : Bool × SyncState × ConfigFile :=
  if st.refresh_token = "" then (false, st, cfg)
  else
    match o with
    | .success tok rt ei =>
      let st2 := { st with
        user_access_token := tok
        refresh_token := rt
        token_expires_at := now + ei.getD 7200 }
      (true, st2, save_config st2 cfg)
    | _ => (false, st, cfg)

/-- get_user_access_token: none when no token is cached; when the cached
token is within 300 seconds of its expiry (or past it) a refresh is
attempted and its result returned; otherwise the cached token is returned
untouched. -/
def get_user_access_token (st : SyncState) (cfg : ConfigFile) (now : Int)
    (o : TokenExchangeOutcome) : Option String × SyncState × ConfigFile :=
  if st.user_access_token = "" then (none, st, cfg)
  else if st.token_expires_at - 300 ≤ now then
    match refresh_user_token st cfg now o with
    | (true, st2, cfg2) => (some st2.user_access_token, st2, cfg2)
    | (false, st2, cfg2) => (none, st2, cfg2)
  else (some st.user_access_token, st, cfg)

/-- Outcome of the tenant_access_token POST: remote rejection, transport
exception, or success carrying the token and the optional expire field
(absent means the source default 7200). -/
inductive TenantTokenOutcome where
  | transportError
  | resultFail
  | success (tenant_access_token : String) (expire : Option Int)
  deriving DecidableEq

/-- get_tenant_access_token: returns the cached token when it is truthy
and strictly within the 300 second safety margin; otherwise requests a
fresh one, caching it in memory with expiry now plus expire on success.
The config file is never written by this accessor. -/
def get_tenant_access_token (st : SyncState) (cfg : ConfigFile) (now : Int)
    (o : TenantTokenOutcome) : Option String × SyncState × ConfigFile :=
  if st.tenant_access_token ≠ "" ∧ now < st.token_expires_at - 300 then
    (some st.tenant_access_token, st, cfg)
  else
    match o with
    | .success tok ei =>
      (some tok,
       { st with
         tenant_access_token := tok
         token_expires_at := now + ei.getD 7200 },
       cfg)
    | _ => (none, st, cfg)

/-- Concrete token state with all three tokens cached and expiry 1000. -/
def stTok : SyncState := ⟨"u", "r", "t", 1000⟩

/-- Concrete config file content distinct from stTok. -/
def cfgTok : ConfigFile := ⟨"cu", "cr", 5⟩

/-- Concrete state with no cached tenant token, forcing a renewal. -/
def stTenantStale : SyncState := ⟨"", "", "", 0⟩

/-- Concrete config file with expiry 0. -/
def cfgZero : ConfigFile := ⟨"", "", 0⟩

/-- The while loop of col_to_letter inside write_data, with an explicit
fuel bound: while the column count is positive, decrement it, prepend the
letter of its residue mod 26 and divide by 26.  A fuel of col suffices
since the counter strictly decreases. -/
def col_to_letter_loop : Nat → Nat → List Char → List Char
  | 0, _, acc => acc
  | fuel+1, col, acc =>
    if col = 0 then acc
    else col_to_letter_loop fuel ((col - 1) / 26)
      (Char.ofNat ((col - 1) % 26 + 65) :: acc)

/-- col_to_letter: the spreadsheet-style base-26 letter encoding of a
column count, from the source's local helper in write_data. -/
def col_to_letter (col : Nat) : String :=
  String.mk (col_to_letter_loop col col [])

/-- The value of a letter string under the bijective base-26 reading with
A worth 1 through Z worth 26; the specification-side decoder used to
state that col_to_letter is the matching encoder. -/
def letters_val (s : String) : Nat :=
  s.data.foldl (fun a c => a * 26 + (c.toNat - 64)) 0

/-- The column count computed by write_data: the maximum row length of
the grid, 0 for an empty grid. -/
def grid_cols {α : Type} (data : List (List α)) : Nat :=
  data.foldl (fun m r => max m r.length) 0

/-- The batch index ranges of write_data's chunk loop: for each of
ceil(total over batch) batches, the start offset and the exclusive end
offset capped at the total. -/
def write_batches (total_rows batch_size : Nat) : List (Nat × Nat) :=
  (List.range ((total_rows + batch_size - 1) / batch_size)).map
    fun idx => (idx * batch_size, min ((idx + 1) * batch_size) total_rows)

/-- The target range string of one chunk write, from the source's
f-string: sheet id, bang, column A at the absolute start row, colon, the
last column letter at the absolute end row. -/
def write_range_str (sheet_id end_col : String) (start_row : Nat) (b : Nat × Nat) : String :=
  sheet_id ++ ("!A") ++ toString (start_row + b.1) ++ (":")
    ++ end_col ++ toString (start_row + b.2 - 1)

/-- The sequence of chunk write requests issued by write_data, in order:
for each batch, its target range string and its slice of the grid. -/
def write_data_requests {α : Type} (data : List (List α)) (sheet_id : String)
    (start_row batch_size : Nat) : List (String × List (List α)) :=
  (write_batches data.length batch_size).map fun b =>
    (write_range_str sheet_id (col_to_letter (grid_cols data)) start_row b,
     (data.drop b.1).take (b.2 - b.1))

/-- A concrete 10000-row grid with two columns per row. -/
def gridW : List (List Nat) := List.replicate 10000 (List.replicate 2 0)

/-- The candidate name tried at probe step k by get_unique_filename:
the base name with the parenthesized counter suffix. -/
def unique_name_candidate (base : String) (k : Nat) : String :=
  base ++ ("_(") ++ toString k ++ (")")

/-- The while-True probe of get_unique_filename with explicit fuel:
try candidates with increasing counters until one is not among the
existing names. -/
def unique_name_probe (existing : List String) (base : String) : Nat → Nat → Option String
  | 0, _ => none
  | fuel+1, counter =>
    if unique_name_candidate base counter ∈ existing then
      unique_name_probe existing base fuel (counter + 1)
    else some (unique_name_candidate base counter)

/-- get_unique_filename: the base name itself when it does not collide
with an existing name, else the linear probe starting at counter 1. -/
def get_unique_filename (existing : List String) (base : String) (fuel : Nat) :
    Option String :=
  if base ∈ existing then unique_name_probe existing base fuel 1 else some base

/-- C1: the paginated fetch starts at page 1 and stops exactly when one of
three conditions first holds: the cap guard fires, the returned record
list is empty, or the accumulated count has reached the effective
remote-reported total; while none of them holds the loop continues to the
next page. -/
theorem fetch_all_data_stop_conditions {α : Type} (pages : Nat → PageResult α)
    (maxPages : Option Nat) :
    (∀ fuel, fetch_all_data pages maxPages fuel = fetch_all_aux pages maxPages fuel 1 []) ∧
    (∀ fuel page acc,
      ((fetch_all_aux pages maxPages fuel page acc).2.1 = StopReason.capExceeded →
        capStop maxPages (fetch_all_aux pages maxPages fuel page acc).2.2 = true) ∧
      ((fetch_all_aux pages maxPages fuel page acc).2.1 = StopReason.emptyPage →
        capStop maxPages (fetch_all_aux pages maxPages fuel page acc).2.2 = false ∧
        (pages (fetch_all_aux pages maxPages fuel page acc).2.2).list = []) ∧
      ((fetch_all_aux pages maxPages fuel page acc).2.1 = StopReason.totalReached →
        capStop maxPages (fetch_all_aux pages maxPages fuel page acc).2.2 = false ∧
        (pages (fetch_all_aux pages maxPages fuel page acc).2.2).list ≠ [] ∧
        effTotal (pages (fetch_all_aux pages maxPages fuel page acc).2.2)
          ≤ (fetch_all_aux pages maxPages fuel page acc).1.length)) ∧
    (∀ fuel page acc, capStop maxPages page = false → (pages page).list ≠ [] →
      acc.length + (pages page).list.length < effTotal (pages page) →
      fetch_all_aux pages maxPages (fuel+1) page acc =
        fetch_all_aux pages maxPages fuel (page+1) (acc ++ (pages page).list)) := by
  refine ⟨fun _ => rfl, ?_, ?_⟩
  · intro fuel page acc
    induction fuel generalizing page acc with
    | zero => simp [fetch_all_aux]
    | succ n ih =>
      by_cases hc : capStop maxPages page
      · simp [fetch_all_aux, hc]
      · by_cases he : (pages page).list.isEmpty
        · have he2 : (pages page).list = [] := List.isEmpty_iff.mp he
          simp [fetch_all_aux, hc, he, he2]
        · have he2 : (pages page).list ≠ [] := by
            simpa [List.isEmpty_iff] using he
          by_cases ht : effTotal (pages page) ≤ acc.length + (pages page).list.length
          · simp [fetch_all_aux, hc, he, ht, he2]
          · simpa [fetch_all_aux, hc, he, ht] using ih (page+1) (acc ++ (pages page).list)
  · intro fuel page acc hc hne hlt
    have he : (pages page).list.isEmpty = false := by
      simpa [List.isEmpty_iff] using hne
    have ht : ¬ effTotal (pages page) ≤ acc.length + (pages page).list.length := by
      omega
    simp [fetch_all_aux, hc, he, ht]

/-- Witness for C1 at a concrete oracle: with every page empty the loop
stops at page 1 for the empty-page reason, and the characterization
yields the stop conditions there. -/
theorem fetch_all_data_stop_conditions_witness :
    capStop none ((fetch_all_aux pagesAllEmpty none 5 1 []).2.2) = false ∧
    (pagesAllEmpty ((fetch_all_aux pagesAllEmpty none 5 1 []).2.2)).list = [] :=
  (((fetch_all_data_stop_conditions pagesAllEmpty none).2.1 5 1 []).2.1) (by decide)

/-- C2: a page request that fails at transport level or whose body cannot
be parsed yields the empty-list zero-total value, and the pagination loop
then stops at that very page with the empty-page reason, returning exactly
the records accumulated so far: no retry, no error signal. -/
theorem fetch_page_failure_truncates {α : Type} (outcomes : Nat → FetchOutcome α)
    (maxPages : Option Nat) (fuel page : Nat) (acc : List α)
    (herr : outcomes page = FetchOutcome.requestError ∨
      outcomes page = FetchOutcome.jsonError)
    (hcap : capStop maxPages page = false) :
    fetch_page (outcomes page) = ⟨[], 0, 0⟩ ∧
    fetch_all_aux (fun p => fetch_page (outcomes p)) maxPages (fuel+1) page acc
      = (acc, StopReason.emptyPage, page) := by
  have hpg : fetch_page (outcomes page) = (⟨[], 0, 0⟩ : PageResult α) := by
    rcases herr with h | h <;> simp [h, fetch_page]
  refine ⟨hpg, ?_⟩
  simp [fetch_all_aux, hcap, hpg]

/-- Witness for C2: a transport failure on page 1 stops the loop there,
returning the single already-accumulated record. -/
theorem fetch_page_failure_truncates_witness :
    fetch_page (outcomesAllFail 1) = ⟨[], 0, 0⟩ ∧
    fetch_all_aux (fun p => fetch_page (outcomesAllFail p)) none (3+1) 1 [7]
      = ([7], StopReason.emptyPage, 1) :=
  fetch_page_failure_truncates outcomesAllFail none 3 1 [7] (Or.inl rfl) (by decide)

/-- C10: a max_pages of 0, like None, is falsy, so the cap guard never
fires and the loop behaves exactly as if no cap were set. -/
theorem fetch_all_data_zero_cap {α : Type} (pages : Nat → PageResult α) :
    (∀ page, capStop (some 0) page = false ∧ capStop none page = false) ∧
    (∀ fuel page acc, fetch_all_aux pages (some 0) fuel page acc
        = fetch_all_aux pages none fuel page acc) ∧
    (∀ fuel, fetch_all_data pages (some 0) fuel = fetch_all_data pages none fuel) := by
  have hcap : ∀ page, capStop (some 0) page = false ∧ capStop none page = false := by
    intro page; exact ⟨rfl, rfl⟩
  have haux : ∀ fuel page acc, fetch_all_aux pages (some 0) fuel page acc
      = fetch_all_aux pages none fuel page acc := by
    intro fuel
    induction fuel with
    | zero => intro page acc; rfl
    | succ n ih =>
      intro page acc
      by_cases he : (pages page).list.isEmpty
      · simp [fetch_all_aux, (hcap page).1, (hcap page).2, he]
      · by_cases ht : effTotal (pages page) ≤ acc.length + (pages page).list.length
        · simp [fetch_all_aux, (hcap page).1, (hcap page).2, he, ht]
        · simp [fetch_all_aux, (hcap page).1, (hcap page).2, he, ht, ih]
  exact ⟨hcap, haux, fun fuel => haux fuel 1 []⟩

theorem pagesConcat_succ {α : Type} (pages : Nat → PageResult α) (p : Nat) :
    pagesConcat pages (p+1) = pagesConcat pages p ++ (pages (p+1)).list := by
  simp [pagesConcat, List.range_succ]

theorem pagesConcat_length_mono {α : Type} (pages : Nat → PageResult α) {p q : Nat}
    (h : p ≤ q) : (pagesConcat pages p).length ≤ (pagesConcat pages q).length := by
  induction q, h using Nat.le_induction with
  | base => exact le_refl _
  | succ n hn ih =>
    have := pagesConcat_succ pages n
    have hlen : (pagesConcat pages (n+1)).length
        = (pagesConcat pages n).length + (pages (n+1)).list.length := by
      rw [this]; simp
    omega

theorem fetch_all_aux_first_empty {α : Type} (pages : Nat → PageResult α)
    (maxPages : Option Nat) (E : Nat) (hE : 1 ≤ E)
    (hcap : ∀ p, capStop maxPages p = false)
    (hempty : (pages E).list = [])
    (hne : ∀ p, 1 ≤ p → p < E → (pages p).list ≠ [])
    (htot : ∀ p, 1 ≤ p → p < E →
      (pagesConcat pages (E-1)).length < effTotal (pages p)) :
    ∀ fuel k, 1 ≤ k → k ≤ E → E + 1 ≤ fuel + k →
      fetch_all_aux pages maxPages fuel k (pagesConcat pages (k-1))
        = (pagesConcat pages (E-1), StopReason.emptyPage, E) := by
  intro fuel
  induction fuel with
  | zero => intro k _ h2 h3; omega
  | succ n ih =>
    intro k h1 h2 h3
    by_cases hk : k = E
    · subst hk
      have he : (pages k).list.isEmpty = true := by simp [hempty]
      simp [fetch_all_aux, hcap k, he]
    · have hkE : k < E := lt_of_le_of_ne h2 hk
      have hne2 : (pages k).list ≠ [] := hne k h1 hkE
      have he : (pages k).list.isEmpty = false := by
        simpa [List.isEmpty_iff] using hne2
      have hconcat : pagesConcat pages (k-1) ++ (pages k).list = pagesConcat pages k := by
        obtain ⟨m, rfl⟩ : ∃ m, k = m + 1 := ⟨k - 1, by omega⟩
        simpa using (pagesConcat_succ pages m).symm
      have hlen : (pagesConcat pages k).length ≤ (pagesConcat pages (E-1)).length :=
        pagesConcat_length_mono pages (by omega)
      have hsum : (pagesConcat pages (k-1)).length + (pages k).list.length
          = (pagesConcat pages k).length := by
        rw [← hconcat]; simp
      have ht : ¬ effTotal (pages k)
          ≤ (pagesConcat pages (k-1)).length + (pages k).list.length := by
        have h5 := htot k h1 hkE
        omega
      have step : fetch_all_aux pages maxPages (n+1) k (pagesConcat pages (k-1))
          = fetch_all_aux pages maxPages n (k+1) (pagesConcat pages (k-1) ++ (pages k).list) := by
        simp [fetch_all_aux, hcap k, he, ht]
      rw [step, hconcat]
      have hrec := ih (k+1) (by omega) (by omega) (by omega)
      simpa using hrec

/-- C7: when the remote-reported total of every fetched page exceeds the
records actually available (the concatenation of all pages before the
first empty one) and no page cap applies, the loop stops exactly at the
first empty page E with the accumulated records of pages 1..E-1, and the
accumulated count after each fetched page stays at or below the running
total reported by that page. -/
theorem fetch_all_data_total_exceeds_available {α : Type} (pages : Nat → PageResult α)
    (maxPages : Option Nat) (E fuel : Nat) (hE : 1 ≤ E) (hfuel : E ≤ fuel)
    (hcap : ∀ p, capStop maxPages p = false)
    (hempty : (pages E).list = [])
    (hne : ∀ p, 1 ≤ p → p < E → (pages p).list ≠ [])
    (htot : ∀ p, 1 ≤ p → p < E →
      (pagesConcat pages (E-1)).length < effTotal (pages p)) :
    fetch_all_data pages maxPages fuel
      = (pagesConcat pages (E-1), StopReason.emptyPage, E) ∧
    (∀ p, 1 ≤ p → p < E → (pagesConcat pages p).length ≤ effTotal (pages p)) := by
  constructor
  · have h0 : pagesConcat pages 0 = [] := rfl
    have := fetch_all_aux_first_empty pages maxPages E hE hcap hempty hne htot
      fuel 1 (le_refl 1) hE (by omega)
    rw [fetch_all_data, ← h0]
    simpa using this
  · intro p h1 h2
    have h5 := htot p h1 h2
    have h6 := pagesConcat_length_mono pages (show p ≤ E - 1 by omega)
    omega

/-- Witness for C7 at a concrete oracle: the server reports total 5 but
only pages 1 and 2 hold a record each; the loop stops at the first empty
page 3 with the two available records. -/
theorem fetch_all_data_total_exceeds_available_witness :
    fetch_all_data pagesShortServer none 3
      = (pagesConcat pagesShortServer 2, StopReason.emptyPage, 3) :=
  (fetch_all_data_total_exceeds_available pagesShortServer none 3 3 (by decide)
    (by decide) (fun _ => rfl) (by decide)
    (by intro p h1 h2; interval_cases p <;> decide)
    (by intro p h1 h2; interval_cases p <;> decide)).1

/-- C5: normalization keeps every record (one row per raw record), the
primary category falls back to the secondary category field and then to
the empty string when the primary key is absent, each price field is
coerced independently with failure yielding null, and on the concrete
scenario record the row has low price 1.2, average price null and high
price 2.0. -/
theorem parse_data_field_rules :
    (∀ raw : List RawRecord, (parse_data raw).length = raw.length) ∧
    (∀ item : RawRecord, item.prodCat = none →
      (parse_row item).cat1 = item.prodPcat.getD ("")) ∧
    (∀ item : RawRecord, item.prodCat = none → item.prodPcat = none →
      (parse_row item).cat1 = "") ∧
    (∀ (item : RawRecord) (s : String),
      (item.lowPrice = some s → to_numeric s = none →
        (parse_row item).lowPrice = none) ∧
      (item.avgPrice = some s → to_numeric s = none →
        (parse_row item).avgPrice = none) ∧
      (item.highPrice = some s → to_numeric s = none →
        (parse_row item).highPrice = none)) ∧
    ((parse_row recVegetable).cat1 = ("蔬菜") ∧
     (parse_row recVegetable).prodName = ("白菜") ∧
     (parse_row recVegetable).lowPrice = some ((6 : ℚ) / 5) ∧
     (parse_row recVegetable).avgPrice = none ∧
     (parse_row recVegetable).highPrice = some ((2 : ℚ)) ∧
     parse_data [recVegetable] = [parse_row recVegetable]) := by
  refine ⟨?_, ?_, ?_, ?_, ?_⟩
  · intro raw; simp [parse_data]
  · intro item h; simp [parse_row, h]
  · intro item h1 h2; simp [parse_row, h1, h2]
  · intro item s
    refine ⟨?_, ?_, ?_⟩ <;> (intro h1 h2; simp [parse_row, h1, h2])
  · refine ⟨by decide, by decide, ?_, by decide, ?_, rfl⟩ <;>
      (simp +decide [parse_row, recVegetable, to_numeric, splitOnDot, parseNatDigits]
       <;> norm_num)

/-- Witness for C5: on a record without the primary category key the row
falls back to the secondary category, and its non-numeric average price
coerces to null. -/
theorem parse_data_field_rules_witness :
    (parse_row recNoPrimary).cat1 = recNoPrimary.prodPcat.getD ("") ∧
    (parse_row recNoPrimary).avgPrice = none :=
  ⟨parse_data_field_rules.2.1 recNoPrimary rfl,
   (parse_data_field_rules.2.2.2.1 recNoPrimary ("x1")).2.1 rfl (by decide)⟩

/-- C3: with a cached (truthy) token, both accessors return the cached
token without touching state, config or the remote endpoint exactly when
now is strictly below expiry minus 300 seconds; at expiry minus now equal
to 300 the token is renewed, at 301 it is still used.  The boundary is
the same for the delegated and the service accessor. -/
theorem token_expiry_boundary (st : SyncState) (cfg : ConfigFile) (now : Int)
    (hu : st.user_access_token ≠ "") (htn : st.tenant_access_token ≠ "") :
    ((∀ o, get_user_access_token st cfg now o = (some st.user_access_token, st, cfg))
        ↔ now < st.token_expires_at - 300) ∧
    ((∀ o, get_tenant_access_token st cfg now o = (some st.tenant_access_token, st, cfg))
        ↔ now < st.token_expires_at - 300) := by
  constructor
  · constructor
    · intro h
      by_contra hlt
      push_neg at hlt
      have h2 := h TokenExchangeOutcome.transportError
      simp [get_user_access_token, refresh_user_token, hu, hlt] at h2
    · intro hlt o
      have h2 : ¬ st.token_expires_at - 300 ≤ now := by omega
      simp [get_user_access_token, hu, h2]
  · constructor
    · intro h
      by_contra hlt
      push_neg at hlt
      have h2 := h TenantTokenOutcome.transportError
      have hcond : ¬ (st.tenant_access_token ≠ "" ∧ now < st.token_expires_at - 300) := by
        intro hx
        omega
      simp [get_tenant_access_token, hcond] at h2
    · intro hlt o
      have hcond : st.tenant_access_token ≠ "" ∧ now < st.token_expires_at - 300 :=
        ⟨htn, hlt⟩
      simp [get_tenant_access_token, hcond]

/-- Witness for C3: with expiry 1000 and now 0 (margin 700 above 300)
both accessors return the cached token unchanged. -/
theorem token_expiry_boundary_witness :
    get_user_access_token stTok cfgTok 0 TokenExchangeOutcome.transportError
      = (some stTok.user_access_token, stTok, cfgTok) ∧
    get_tenant_access_token stTok cfgTok 0 TenantTokenOutcome.transportError
      = (some stTok.tenant_access_token, stTok, cfgTok) :=
  ⟨((token_expiry_boundary stTok cfgTok 0 (by decide) (by decide)).1.mpr (by decide))
      TokenExchangeOutcome.transportError,
   ((token_expiry_boundary stTok cfgTok 0 (by decide) (by decide)).2.mpr (by decide))
      TenantTokenOutcome.transportError⟩

/-- Counterexample to C6: a successful service-token acquisition updates
the in-memory token and expiry but never writes the config file, so the
persisted expiry (0) differs from the cached one (8200): the persisted
config does not mirror the in-memory token state after this renewal. -/
theorem tenant_token_renewal_not_persisted :
    (get_tenant_access_token stTenantStale cfgZero 1000
        (TenantTokenOutcome.success ("tok") (some 7200))).1 = some ("tok") ∧
    ((get_tenant_access_token stTenantStale cfgZero 1000
        (TenantTokenOutcome.success ("tok") (some 7200))).2.1).token_expires_at = 8200 ∧
    (get_tenant_access_token stTenantStale cfgZero 1000
        (TenantTokenOutcome.success ("tok") (some 7200))).2.2 = cfgZero ∧
    ((get_tenant_access_token stTenantStale cfgZero 1000
        (TenantTokenOutcome.success ("tok") (some 7200))).2.2).token_expires_at ≠
      ((get_tenant_access_token stTenantStale cfgZero 1000
        (TenantTokenOutcome.success ("tok") (some 7200))).2.1).token_expires_at := by
  refine ⟨by decide, by decide, by decide, by decide⟩

/-- C6 as amended: after a successful authorization-code exchange and a
successful delegated refresh, the config file holds exactly the renewed
user token, refresh token and absolute expiry of the in-memory state;
the service-token accessor, by contrast, never writes the config file at
all, whatever the outcome. -/
theorem token_renewal_persistence (st : SyncState) (cfg : ConfigFile) (now : Int)
    (tok rt : String) (ei : Option Int) (hr : st.refresh_token ≠ "") :
    ((exchange_code_for_token st cfg now (TokenExchangeOutcome.success tok rt ei)).1
        = true ∧
      (exchange_code_for_token st cfg now (TokenExchangeOutcome.success tok rt ei)).2.2
        = save_config
            (exchange_code_for_token st cfg now (TokenExchangeOutcome.success tok rt ei)).2.1
            cfg) ∧
    ((refresh_user_token st cfg now (TokenExchangeOutcome.success tok rt ei)).1 = true ∧
      (refresh_user_token st cfg now (TokenExchangeOutcome.success tok rt ei)).2.2
        = save_config
            (refresh_user_token st cfg now (TokenExchangeOutcome.success tok rt ei)).2.1
            cfg) ∧
    (∀ o, (get_tenant_access_token st cfg now o).2.2 = cfg) := by
  refine ⟨⟨rfl, rfl⟩, ?_, ?_⟩
  · simp [refresh_user_token, hr]
  · intro o
    by_cases h : st.tenant_access_token ≠ "" ∧ now < st.token_expires_at - 300
    · simp [get_tenant_access_token, h]
    · cases o <;> simp [get_tenant_access_token, h]

/-- Witness for C6 as amended: a successful refresh from the concrete
cached state persists the renewed pair to the config file. -/
theorem token_renewal_persistence_witness :
    (refresh_user_token stTok cfgTok 0
        (TokenExchangeOutcome.success ("nu") ("nr") none)).1 = true ∧
    (refresh_user_token stTok cfgTok 0
        (TokenExchangeOutcome.success ("nu") ("nr") none)).2.2
      = save_config
          (refresh_user_token stTok cfgTok 0
            (TokenExchangeOutcome.success ("nu") ("nr") none)).2.1
          cfgTok :=
  (token_renewal_persistence stTok cfgTok 0 ("nu") ("nr") none (by decide)).2.1

theorem char_toNat_ofNat_digit (m : Nat) (hm : m < 26) :
    (Char.ofNat (m + 65)).toNat = m + 65 := by
  interval_cases m <;> decide

theorem col_to_letter_loop_append (fuel : Nat) :
    ∀ col acc, col_to_letter_loop fuel col acc
      = col_to_letter_loop fuel col [] ++ acc := by
  induction fuel with
  | zero => intro col acc; simp [col_to_letter_loop]
  | succ n ih =>
    intro col acc
    by_cases h : col = 0
    · simp [col_to_letter_loop, h]
    · simp only [col_to_letter_loop]
      rw [if_neg h, if_neg h,
        ih ((col - 1) / 26) (Char.ofNat ((col - 1) % 26 + 65) :: acc),
        ih ((col - 1) / 26) [Char.ofNat ((col - 1) % 26 + 65)]]
      simp

theorem col_to_letter_loop_val (fuel : Nat) :
    ∀ col, col ≤ fuel →
      (col_to_letter_loop fuel col []).foldl (fun a c => a * 26 + (c.toNat - 64)) 0
        = col := by
  induction fuel with
  | zero =>
    intro col hcol
    interval_cases col
    simp [col_to_letter_loop]
  | succ n ih =>
    intro col hcol
    by_cases h : col = 0
    · simp [col_to_letter_loop, h]
    · have hstep : col_to_letter_loop (n+1) col []
          = col_to_letter_loop n ((col - 1) / 26) []
            ++ [Char.ofNat ((col - 1) % 26 + 65)] := by
        simp only [col_to_letter_loop]
        rw [if_neg h]
        exact col_to_letter_loop_append n ((col - 1) / 26)
          [Char.ofNat ((col - 1) % 26 + 65)]
      rw [hstep, List.foldl_append]
      have h26 : (col - 1) % 26 < 26 := Nat.mod_lt _ (by norm_num)
      have hch := char_toNat_ofNat_digit ((col - 1) % 26) h26
      have hc2 : (col - 1) / 26 ≤ n := by
        have := Nat.div_le_self (col - 1) 26
        omega
      rw [ih ((col - 1) / 26) hc2]
      simp only [List.foldl_cons, List.foldl_nil, hch]
      have := Nat.div_add_mod (col - 1) 26
      omega

/-- C8: col_to_letter is the spreadsheet-style base-26 letter encoding:
decoding any encoded column count gives the count back, and the sample
counts 1, 26, 27, 52 and 53 encode to A, Z, AA, AZ and BA. -/
theorem col_to_letter_base26 :
    (∀ n : Nat, letters_val (col_to_letter n) = n) ∧
    col_to_letter 1 = ("A") ∧ col_to_letter 26 = ("Z") ∧
    col_to_letter 27 = ("AA") ∧ col_to_letter 52 = ("AZ") ∧
    col_to_letter 53 = ("BA") := by
  refine ⟨?_, by decide, by decide, by decide, by decide, by decide⟩
  intro n
  simpa [letters_val, col_to_letter] using col_to_letter_loop_val n n (le_refl n)

/-- C4: a 10000-row grid written in chunks of 4000 from start row 1
produces exactly 3 sequential chunk writes covering the absolute row
ranges 1 to 4000, 4001 to 8000 and 8001 to 10000, each with the target
range string sheet, bang, A at the start row, colon, then the base-26
letter encoding of the grid's column count at the end row. -/
theorem write_data_chunking {α : Type} (data : List (List α)) (sheet : String)
    (cols : Nat) (hlen : data.length = 10000) (hcols : grid_cols data = cols) :
    (write_data_requests data sheet 1 4000).length = 3 ∧
    ((write_batches 10000 4000).map fun b => (1 + b.1, 1 + b.2 - 1))
      = [(1, 4000), (4001, 8000), (8001, 10000)] ∧
    (write_data_requests data sheet 1 4000).map Prod.fst
      = [sheet ++ ("!A") ++ ("1") ++ (":") ++ col_to_letter cols ++ ("4000"),
         sheet ++ ("!A") ++ ("4001") ++ (":") ++ col_to_letter cols ++ ("8000"),
         sheet ++ ("!A") ++ ("8001") ++ (":") ++ col_to_letter cols ++ ("10000")] := by
  have hb : write_batches 10000 4000 = [(0, 4000), (4000, 8000), (8000, 10000)] := by
    decide
  subst hcols
  refine ⟨?_, by decide, ?_⟩
  · simp [write_data_requests, hlen, hb]
  · simp only [write_data_requests, hlen, hb, write_range_str, List.map_cons,
      List.map_nil]
    rfl

theorem foldl_max_len_replicate {α : Type} (row : List α) :
    ∀ (n a : Nat), (List.replicate n row).foldl (fun m r => max m r.length) a
      = if n = 0 then a else max a row.length := by
  intro n
  induction n with
  | zero => intro a; simp
  | succ m ih =>
    intro a
    rw [List.replicate_succ, List.foldl_cons, ih]
    by_cases h : m = 0
    · simp [h]
    · simp [h, Nat.max_assoc]

theorem grid_cols_gridW : grid_cols gridW = 2 := by
  rw [gridW, grid_cols, foldl_max_len_replicate]
  simp

theorem gridW_length : gridW.length = 10000 := by
  rw [gridW, List.length_replicate]

/-- Witness for C4 on a concrete 10000 by 2 grid. -/
theorem write_data_chunking_witness :
    (write_data_requests gridW ("S1") 1 4000).length = 3 :=
  (write_data_chunking gridW ("S1") 2 gridW_length grid_cols_gridW).1

theorem unique_name_probe_first_fit (existing : List String) (base : String) :
    ∀ (fuel counter : Nat) (s : String),
      unique_name_probe existing base fuel counter = some s →
      ∃ k, counter ≤ k ∧ s = unique_name_candidate base k ∧ s ∉ existing ∧
        ∀ j, counter ≤ j → j < k → unique_name_candidate base j ∈ existing := by
  intro fuel
  induction fuel with
  | zero => intro counter s h; simp [unique_name_probe] at h
  | succ n ih =>
    intro counter s h
    simp only [unique_name_probe] at h
    by_cases hc : unique_name_candidate base counter ∈ existing
    · rw [if_pos hc] at h
      obtain ⟨k, hk1, hk2, hk3, hk4⟩ := ih (counter + 1) s h
      refine ⟨k, by omega, hk2, hk3, fun j hj1 hj2 => ?_⟩
      by_cases hj : j = counter
      · rw [hj]; exact hc
      · exact hk4 j (by omega) hj2
    · rw [if_neg hc] at h
      obtain rfl : unique_name_candidate base counter = s := by
        exact Option.some.inj h
      exact ⟨counter, le_refl _, rfl, hc, fun j hj1 hj2 => by omega⟩

/-- C9: collision resolution is a strictly monotonic linear probe: a
non-colliding base name is returned unchanged; a colliding one gets the
first suffixed candidate, counting up from 1, that does not collide,
every smaller counter having collided; and resolving X against existing
names X and X suffixed 1 yields X suffixed 2. -/
theorem get_unique_filename_monotonic_probe (existing : List String) (base : String)
    (fuel : Nat) :
    (base ∉ existing → get_unique_filename existing base fuel = some base) ∧
    (∀ s, get_unique_filename existing base fuel = some s → base ∈ existing →
      ∃ k, 1 ≤ k ∧ s = unique_name_candidate base k ∧ s ∉ existing ∧
        ∀ j, 1 ≤ j → j < k → unique_name_candidate base j ∈ existing) ∧
    get_unique_filename [("X"), ("X_(1)")] ("X") 10 = some ("X_(2)") := by
  refine ⟨?_, ?_, by decide⟩
  · intro h; simp [get_unique_filename, h]
  · intro s h hb
    rw [get_unique_filename, if_pos hb] at h
    exact unique_name_probe_first_fit existing base fuel 1 s h

/-- Witness for C9: a base name absent from the listing is returned
unchanged. -/
theorem get_unique_filename_monotonic_probe_witness :
    get_unique_filename [("Y")] ("X") 5 = some ("X") :=
  (get_unique_filename_monotonic_probe [("Y")] ("X") 5).1 (by decide)
